import Mathlib

/-!
Shallow embedding of the docset acquisition pipeline implemented in
`src/ui/settingsdialog.cpp` of the Zeal documentation browser, together
with theorems settling the frozen claims about it.

The embedding translates the pipeline-relevant state of `SettingsDialog`
(the `replies` list of in-flight network transfers with their attached
properties, the combined progress counters, the `m_availableDocsets` and
`m_userFeeds` maps, the `m_tmpFiles` table and the docset registry view)
into an explicit state record, and each slot / handler of the dialog into
a state-transition function.  Widget-only effects (labels, icons, dialog
text) are not modelled except where a claim observes them: the number of
warning dialogs shown, the enabled state of the download-related actions,
and the row count of the available-docset list widget.
-/

namespace Zeal

/-- The `DownloadType` tag stored on every reply as the
`DownloadTypeProperty` (the `switch` in `downloadCompleted` has exactly
these three cases). -/
inductive DownloadType where
  | downloadDashFeed
  | downloadDocset
  | downloadDocsetList
  deriving DecidableEq, Repr

/-- A URL split into the components the redirect logic of
`downloadCompleted` inspects: `QUrl::scheme()`, the authority and the
path.  `QUrl::isRelative()` is true exactly when the scheme is empty. -/
structure Url where
  scheme : String
  authority : String
  path : String
  deriving DecidableEq, Repr

instance : Inhabited Url := ⟨⟨"", "", ""⟩⟩

def Url.isRelative (u : Url) : Bool := u.scheme.isEmpty

/-- The characters of `p` up to and including the last slash: the
directory part used when merging a relative path reference. -/
def dirOf (p : String) : String :=
  String.mk ((p.data.reverse.dropWhile (fun c => c ≠ '/')).reverse)

/-- Modelled from the spec: the external `QUrl::resolved` collaborator
(Qt library, not part of this repository) — "resolve relative targets
against the original request URL".  A target with a scheme is returned
unchanged; otherwise the base contributes its scheme, and its authority
and directory when the target lacks them.  (RFC 3986 style merge,
restricted to the components modelled here.) -/
def Url.resolved (base target : Url) : Url :=
  if ¬ target.scheme.isEmpty then target
  else if ¬ target.authority.isEmpty then
    { target with scheme := base.scheme }
  else if target.path.startsWith "/" then
    { scheme := base.scheme, authority := base.authority, path := target.path }
  else
    { scheme := base.scheme, authority := base.authority,
      path := dirOf base.path ++ target.path }

/-- Lines 166–172 of `downloadCompleted`: a relative redirect target is
resolved against the original request URL, and a target still missing a
scheme inherits the original URL's scheme. -/
def resolveRedirect (requestUrl redirectUrl : Url) : Url :=
  let r := if redirectUrl.isRelative then requestUrl.resolved redirectUrl
           else redirectUrl
  if r.scheme.isEmpty then { r with scheme := requestUrl.scheme } else r

/-- `DocsetMetadata` as the dialog uses it: `name()`, `title()`,
`version()`, `urls()` (with `url()` the primary entry) and the `source`
tag `processDocsetList` injects into the catalog JSON. -/
structure DocsetMetadata where
  name : String
  title : String
  version : String
  urls : List Url
  source : String
  deriving DecidableEq, Repr

/-- A default-constructed `DocsetMetadata` (all fields empty), the value
of `oldMetadata` when a reply carries no `DocsetMetadataProperty`. -/
instance : Inhabited DocsetMetadata := ⟨⟨"", "", "", [], ""⟩⟩

def DocsetMetadata.url (m : DocsetMetadata) : Url := m.urls.headD default

/-- The properties attached to one in-flight `QNetworkReply`: the request
URL, `DownloadTypeProperty`, `DocsetMetadataProperty` and
`ListItemIndexProperty` (`none` when the property was never set; an
unset property converts to integer 0).  `id` stands for the reply
object's identity in the `replies` list. -/
structure ReplyProps where
  id : Nat
  url : Url
  downloadType : DownloadType
  docsetMetadata : Option DocsetMetadata
  listItemIndex : Option Int
  deriving DecidableEq, Repr

/-- One network response in a redirect chain: either it carries a valid
`RedirectionTargetAttribute`, or it is the final (non-redirect)
response. -/
inductive HopResponse where
  | redirect (target : Url)
  | final
  deriving DecidableEq, Repr

/-- What reaches the `switch` dispatch of `downloadCompleted` — the
  terminal handling of one logical transfer, with the properties read off
  the reply that delivered the final response. -/
structure TerminalEvent where
  purpose : DownloadType
  docsetMetadata : Option DocsetMetadata
  listItemIndex : Option Int
  url : Url
  deriving DecidableEq, Repr

/-- The redirect-following loop of `downloadCompleted` (lines 165–184)
run over a chain of responses for one logical transfer: a redirect
response resolves the target, starts one new transfer carrying the
original reply's three properties verbatim, and returns without
dispatching; a final response dispatches exactly once.  Returns the
terminal events produced and the number of follow-up transfers
started. -/
def followChain : ReplyProps → List HopResponse → List TerminalEvent × Nat
  | _, [] => ([], 0)
  | r, HopResponse.final :: _ =>
      ([⟨r.downloadType, r.docsetMetadata, r.listItemIndex, r.url⟩], 0)
  | r, HopResponse.redirect t :: rest =>
      let next : ReplyProps := { r with url := resolveRedirect r.url t }
      let p := followChain next rest
      (p.1, p.2 + 1)

/-- `SettingsDialog::percent` (lines 617–623): `total == 0` yields `0`;
otherwise `fraction / (double)total * 100` converted to `int`, i.e. (in
exact arithmetic, which the claims are stated in) the real quotient
`fraction * 100 / total` truncated toward zero. -/
def percent (fraction total : Int) : Int :=
  if total = 0 then 0 else (fraction * 100).tdiv total

/-- The percentage function as §4.6 of the spec words it:
`floor(received / total * 100)`, clamped to `0..100`, with `total = 0`
defined as `0`.  Stated only to compare against `percent`. -/
def percentSpecClamped (fraction total : Int) : Int :=
  if total = 0 then 0 else max 0 (min 100 ((fraction * 100).fdiv total))

/-- `QMap::insert` on a name-keyed map: replaces the value of an existing
key, otherwise adds the pair.  (Entry order is irrelevant to every claim;
keys stay unique.) -/
def mapInsert {α : Type} (m : List (String × α)) (k : String) (v : α) :
    List (String × α) :=
  m.filter (fun p => p.1 ≠ k) ++ [(k, v)]

/-- `QMap` lookup by key. -/
def mapLookup {α : Type} (m : List (String × α)) (k : String) : Option α :=
  (m.find? (fun p => p.1 = k)).map (fun p => p.2)

/-- `QFileInfo::baseName`: the file name of the path without the
directory and without everything from the first dot on. -/
def baseName (p : String) : String :=
  String.mk (((p.data.reverse.takeWhile (fun c => c ≠ '/')).reverse).takeWhile
    (fun c => c ≠ '.'))

/-- The n-th temporary file name a `QTemporaryFile` opens. -/
def tempFilePath (n : Nat) : String := "/tmp/qt_temp." ++ toString n

/-- The pipeline-relevant state of the dialog: the `replies` list, the
combined progress counters, `m_availableDocsets`, `m_userFeeds`,
`m_tmpFiles` (docset name ↦ temporary archive path), the registry's
installed names, and the observables claims mention — warning dialogs
shown, extraction invocations, the enabled state of the download-related
actions and the row count of the available-docset list widget. -/
structure PipelineState where
  replies : List ReplyProps
  nextId : Nat
  nextTmp : Nat
  combinedReceived : Int
  combinedTotal : Int
  availableDocsets : List (String × DocsetMetadata)
  userFeeds : List (String × DocsetMetadata)
  tmpFiles : List (String × String)
  registry : List String
  warnings : Nat
  extractCalls : List (String × String)
  uiEnabled : Bool
  availableListLen : Nat
  dataDirExists : Bool
  deriving DecidableEq, Repr

/-- `SettingsDialog::startDownload` (lines 549–563): issues the request,
appends the reply to `replies` and disables the download/update/add-feed
actions.  The caller then sets the reply's properties, passed here
directly. -/
def startDownload (s : PipelineState) (url : Url) (dt : DownloadType)
    (meta : Option DocsetMetadata) (listIdx : Option Int) : PipelineState :=
  { s with replies := s.replies ++ [⟨s.nextId, url, dt, meta, listIdx⟩],
           nextId := s.nextId + 1,
           uiEnabled := false }

/-- `SettingsDialog::resetProgress` (lines 328–340): zeroes the combined
counters and re-enables the download/update/add-feed actions and the
available-docset list. -/
def resetProgress (s : PipelineState) : PipelineState :=
  { s with combinedReceived := 0, combinedTotal := 0, uiEnabled := true }

/-- The final response body as the three `switch` cases of
`downloadCompleted` read it: the catalog JSON (with the outcome of
`QJsonDocument::fromJson`, and the `DocsetMetadata` values the parsed
array's objects yield), a dash feed (with the `DocsetMetadata` that
`DocsetMetadata::fromDashFeed` parses from it), or archive bytes. -/
inductive Body where
  | docsetList (parseOk : Bool) (entries : List DocsetMetadata)
  | dashFeed (metadata : DocsetMetadata)
  | docsetArchive
  deriving DecidableEq, Repr

/-- What a finished reply delivered: a transport/HTTP error
(`OperationCanceledError` when `canceled`), a valid redirect target, or
a final payload. -/
inductive Outcome where
  | networkError (canceled : Bool)
  | redirectTo (target : Url)
  | payload (body : Body)
  deriving DecidableEq, Repr

/-- `SettingsDialog::processDocsetList` (lines 397–419): each catalog
entry gets `source = "kapeli"` and is inserted into `m_availableDocsets`
under its name (`QMap::insert`, so a repeated name keeps the last
entry); one list item per entry of the resulting map is then added to
the available-docset list widget. -/
def processDocsetList (avail : List (String × DocsetMetadata))
    (entries : List DocsetMetadata) : List (String × DocsetMetadata) :=
  entries.foldl (fun m e => mapInsert m e.name { e with source := "kapeli" }) avail

/-- The `switch` of `downloadCompleted` (lines 186–250), dispatched on
the reply's `DownloadTypeProperty`, applied to the state `s1` in which
the finished reply has already been removed from `replies`:
  - `DownloadDocsetList`: a JSON parse failure warns; otherwise the array
    is folded into `m_availableDocsets` and progress is reset;
  - `DownloadDashFeed`: a feed without download URLs warns ("Invalid
    docset feed!"); otherwise, when the feed's version is empty or
    differs from the version of the metadata carried on the reply, the
    feed metadata is stored in `m_userFeeds` under its name and one
    archive transfer to `metadata.url()` is started, tagged
    `DownloadDocset` and carrying the new metadata;
  - `DownloadDocset`: the body is written to a fresh temporary file,
    recorded in `m_tmpFiles` under the metadata's name, and extraction is
    invoked on it. -/
def dispatchPayload (s1 : PipelineState) (r : ReplyProps) (body : Body) :
    PipelineState :=
  match r.downloadType, body with
  | DownloadType.downloadDocsetList, Body.docsetList parseOk entries =>
      if parseOk then
        let avail := processDocsetList s1.availableDocsets entries
        resetProgress
          { s1 with
              availableDocsets := avail,
              availableListLen := s1.availableListLen + avail.length }
      else { s1 with warnings := s1.warnings + 1 }
  | DownloadType.downloadDashFeed, Body.dashFeed metadata =>
      if metadata.urls.isEmpty then { s1 with warnings := s1.warnings + 1 }
      else
        let oldMetadata := r.docsetMetadata.getD default
        if metadata.version.isEmpty
            || decide (oldMetadata.version ≠ metadata.version) then
          startDownload
            { s1 with userFeeds := mapInsert s1.userFeeds metadata.name metadata }
            metadata.url DownloadType.downloadDocset (some metadata) none
        else s1
  | DownloadType.downloadDocset, Body.docsetArchive =>
      let metadata := r.docsetMetadata.getD default
      let tmpPath := tempFilePath s1.nextTmp
      { s1 with tmpFiles := mapInsert s1.tmpFiles metadata.name tmpPath,
                nextTmp := s1.nextTmp + 1,
                extractCalls := s1.extractCalls
                  ++ [(tmpPath, metadata.name ++ ".docset")] }
  | _, _ => s1

/-- `SettingsDialog::downloadCompleted` (lines 151–255) for a reply `r`
that finished with outcome `oc`.  The reply is first removed from
`replies`; a network error returns early (warning only when it is not a
cancellation); a redirect starts one follow-up transfer with the three
properties copied and returns; otherwise the body is dispatched on the
reply's download type, and if no reply remains in flight the combined
progress is reset. -/
def downloadCompleted (s : PipelineState) (r : ReplyProps) (oc : Outcome) :
    PipelineState :=
  let s1 : PipelineState :=
    { s with replies := s.replies.eraseP (fun q => q.id == r.id) }
  match oc with
  | Outcome.networkError canceled =>
      if canceled then s1 else { s1 with warnings := s1.warnings + 1 }
  | Outcome.redirectTo target =>
      startDownload s1 (resolveRedirect r.url target) r.downloadType
        r.docsetMetadata r.listItemIndex
  | Outcome.payload body =>
      let s2 := dispatchPayload s1 r body
      if s2.replies.isEmpty then resetProgress s2 else s2

/-- `SettingsDialog::downloadDocsetList` (lines 453–462): clears the
available-docset list widget and `m_availableDocsets`, then starts the
one catalog transfer tagged `DownloadDocsetList`. -/
def downloadDocsetList (s : PipelineState) : PipelineState :=
  startDownload
    { s with availableListLen := 0, availableDocsets := [] }
    ⟨"http", "api.zealdocs.org", "/docsets"⟩
    DownloadType.downloadDocsetList none none

/-- The fixed mirror pool of `downloadDashDocset`. -/
def kapeliUrls : List String :=
  ["http://sanfrancisco.kapeli.com", "http://sanfrancisco2.kapeli.com",
   "http://london.kapeli.com", "http://london2.kapeli.com",
   "http://london3.kapeli.com", "http://newyork.kapeli.com",
   "http://newyork2.kapeli.com", "http://sydney.kapeli.com",
   "http://tokyo.kapeli.com", "http://tokyo2.kapeli.com"]

/-- `SettingsDialog::downloadDashDocset` (lines 421–451): a name not in
`m_availableDocsets` returns at once; otherwise one archive transfer to
`mirror/feeds/<name>.tgz` is started, tagged `DownloadDocset` and
carrying the catalog metadata and the docset's list row.  `rand` stands
for `qrand()` and `row` for the row of the docset's list item. -/
def downloadDashDocset (s : PipelineState) (rand : Nat) (row : Int)
    (name : String) : PipelineState :=
  if (mapLookup s.availableDocsets name).isSome then
    let meta := (mapLookup s.availableDocsets name).getD default
    let mirror := kapeliUrls.getD (rand % kapeliUrls.length) ""
    startDownload s ⟨"http", (mirror.drop 7), "/feeds/" ++ name ++ ".tgz"⟩
      DownloadType.downloadDocset (some meta) (some row)
  else s

/-- `SettingsDialog::stopDownloads` (lines 565–577): for each in-flight
reply, the list item at the reply's `ListItemIndexProperty` (an unset
property reads as 0) is looked up; when the lookup yields no item the
loop continues — skipping the `abort()` call as well.  Afterwards
progress is reset.  Returns the new state and the ids of the replies
actually aborted. -/
def stopDownloads (s : PipelineState) : PipelineState × List Nat :=
  let aborted := s.replies.filter
    (fun r => 0 ≤ r.listItemIndex.getD 0
      ∧ r.listItemIndex.getD 0 < (s.availableListLen : Int))
  (resetProgress s, aborted.map (fun r => r.id))

/-- `SettingsDialog::on_deleteButton_clicked` (lines 501–541) after the
user confirms: the registry entry is removed first; when the data
directory exists, the docset directory is removed on a worker and the
watcher callback reports a warning on failure (`removeSucceeds` is the
worker's result) and resets progress. -/
def deleteDocset (s : PipelineState) (name : String) (removeSucceeds : Bool) :
    PipelineState :=
  let s1 : PipelineState := { s with registry := s.registry.filter (fun n => n ≠ name) }
  if s1.dataDirExists then
    let s2 : PipelineState :=
      if removeSucceeds then s1 else { s1 with warnings := s1.warnings + 1 }
    resetProgress s2
  else s1

/-- `SettingsDialog::extractionCompleted` (lines 83–114): the docset name
is recovered by scanning `m_tmpFiles` for the entry whose file name
matches `filePath`; the metadata side-file is written, the docset is
registered, its list item hidden, progress reset, and the temp-file
entry removed (deleting the `QTemporaryFile` removes the file). -/
def extractionCompleted (s : PipelineState) (filePath : String) : PipelineState :=
  let docsetName :=
    ((s.tmpFiles.find? (fun p => p.2 = filePath)).map (fun p => p.1)).getD ""
  let s1 : PipelineState := { s with registry := s.registry ++ [docsetName] }
  let s2 := resetProgress s1
  { s2 with tmpFiles := s2.tmpFiles.filter (fun p => p.1 ≠ docsetName) }

/-- `SettingsDialog::extractionError` (lines 116–123): the name it uses
is `QFileInfo(filePath).baseName() + ".docset"`; a warning is shown and
`m_tmpFiles.take` is called with that name (removing nothing when no
entry has that key). -/
def extractionError (s : PipelineState) (filePath : String) : PipelineState :=
  let docsetName := baseName filePath ++ ".docset"
  { s with warnings := s.warnings + 1,
           tmpFiles := s.tmpFiles.filter (fun p => p.1 ≠ docsetName) }

/-- A quiescent dialog state: no transfers, nothing downloaded. -/
def emptyState : PipelineState :=
  { replies := [], nextId := 1, nextTmp := 0, combinedReceived := 0,
    combinedTotal := 0, availableDocsets := [], userFeeds := [], tmpFiles := [],
    registry := [], warnings := 0, extractCalls := [], uiEnabled := true,
    availableListLen := 0, dataDirExists := true }

/-- The catalog-list transfer as `downloadDocsetList` starts it: no
docset metadata and no list-item property attached. -/
def catalogReply : ReplyProps :=
  ⟨0, ⟨"http", "api.zealdocs.org", "/docsets"⟩, DownloadType.downloadDocsetList,
    none, none⟩

/-- A state with the catalog-list transfer in flight, nonzero combined
progress, and the available-docset list widget still empty (it is
cleared when the catalog fetch starts). -/
def inFlightState : PipelineState :=
  { emptyState with
      replies := [catalogReply],
      combinedReceived := 5,
      combinedTotal := 10,
      uiEnabled := false }

/-- A state in which the archive for docset "go" has been downloaded to
a temporary file and handed to the extractor. -/
def extractingState : PipelineState :=
  { emptyState with tmpFiles := [("go", "/tmp/qt_temp.0")] }

/-- The metadata a feed for docset "go" with an empty version parses
to. -/
def goFeedMetadata : DocsetMetadata :=
  { name := "go", title := "Go", version := "",
    urls := [⟨"http", "x", "/go.tgz"⟩], source := "" }

/-- A feed-refresh reply for "go" carrying previously stored metadata
with a non-empty version. -/
def goFeedReply : ReplyProps :=
  ⟨0, ⟨"http", "feeds.example.org", "/go.xml"⟩, DownloadType.downloadDashFeed,
    some { goFeedMetadata with version := "1.4" }, none⟩

/-- A state with the "go" feed refresh in flight. -/
def goFeedState : PipelineState :=
  { emptyState with replies := [goFeedReply], uiEnabled := false }

/-- A state with docsets "go" and "python" installed. -/
def installedState : PipelineState :=
  { emptyState with registry := ["go", "python"] }

end Zeal

namespace Zeal

theorem resolved_scheme_of_relative (u t : Url) (ht : t.scheme.isEmpty = true) :
    (u.resolved t).scheme = u.scheme := by
  unfold Url.resolved
  rw [ht]
  simp only [Bool.not_true, Bool.false_eq_true, if_false]
  by_cases ha : t.authority.isEmpty
  · simp only [ha, Bool.not_true, Bool.false_eq_true, if_false]
    by_cases hp : t.path.startsWith "/"
    · simp [hp]
    · simp [hp]
  · simp only [Bool.not_eq_true] at ha
    simp [ha]

theorem resolveRedirect_of_relative (u t : Url) (ht : t.isRelative = true) :
    resolveRedirect u t = u.resolved t := by
  have hres := resolved_scheme_of_relative u t ht
  unfold resolveRedirect
  rw [ht]
  simp only [if_true]
  by_cases h : (u.resolved t).scheme.isEmpty
  · rw [if_pos h, ← hres]
  · rw [if_neg h]

theorem resolveRedirect_scheme (u t : Url) (ht : t.scheme = "") :
    (resolveRedirect u t).scheme = u.scheme := by
  have hsch : t.scheme.isEmpty = true := by rw [ht]; rfl
  have hrel : t.isRelative = true := hsch
  have hres := resolved_scheme_of_relative u t hsch
  rw [resolveRedirect_of_relative u t hrel]
  exact hres

theorem followChain_map_redirect (r : ReplyProps) (targets : List Url) :
    followChain r (targets.map HopResponse.redirect ++ [HopResponse.final])
      = ([⟨r.downloadType, r.docsetMetadata, r.listItemIndex,
            (targets.foldl (fun u t => resolveRedirect u t) r.url)⟩],
         targets.length) := by
  induction targets generalizing r with
  | nil => rfl
  | cons t ts ih =>
      rw [List.map_cons, List.cons_append, List.foldl_cons]
      show ((followChain { r with url := resolveRedirect r.url t }
              (ts.map HopResponse.redirect ++ [HopResponse.final])).1,
            (followChain { r with url := resolveRedirect r.url t }
              (ts.map HopResponse.redirect ++ [HopResponse.final])).2 + 1) = _
      rw [ih]
      simp

theorem followChain_replicate (u : Url) (n : Nat) (r : ReplyProps) :
    followChain r (List.replicate n (HopResponse.redirect u)) = ([], n) := by
  induction n generalizing r with
  | zero => rfl
  | succ m ih => simp only [List.replicate_succ, followChain, ih]

/-- C1: redirect following resolves relative targets against the original
request URL, inherits the original scheme when the target has none,
starts one new transfer per hop copying the purpose and docset metadata
properties verbatim, and a transfer that redirects any number of times
before a final response produces exactly one terminal event, carrying the
original purpose, metadata and list-item index. -/
theorem redirects_preserve_purpose_single_terminal (r : ReplyProps)
    (targets : List Url) :
    ((followChain r (targets.map HopResponse.redirect ++ [HopResponse.final])).1.length = 1
      ∧ (∀ ev ∈ (followChain r (targets.map HopResponse.redirect ++ [HopResponse.final])).1,
            ev.purpose = r.downloadType ∧ ev.docsetMetadata = r.docsetMetadata
              ∧ ev.listItemIndex = r.listItemIndex)
      ∧ (followChain r (targets.map HopResponse.redirect ++ [HopResponse.final])).2
          = targets.length)
    ∧ (∀ u t : Url, t.isRelative = true → resolveRedirect u t = u.resolved t)
    ∧ (∀ u t : Url, t.scheme = "" → (resolveRedirect u t).scheme = u.scheme) := by
  refine ⟨⟨?_, ?_, ?_⟩, ?_, ?_⟩
  · rw [followChain_map_redirect]
    rfl
  · rw [followChain_map_redirect]
    intro ev hev
    simp only [List.mem_singleton] at hev
    subst hev
    exact ⟨rfl, rfl, rfl⟩
  · rw [followChain_map_redirect]
  · exact resolveRedirect_of_relative
  · exact resolveRedirect_scheme

/-- C9, counterexample: the code enforces no bound on the number of
redirect hops a transfer follows — for every candidate bound there is a
response chain making the pipeline start more follow-up transfers than
the bound allows, so the claimed uniform bound does not exist. -/
theorem no_redirect_bound :
    ¬ ∃ B : Nat, ∀ (r : ReplyProps) (chain : List HopResponse),
        (followChain r chain).2 ≤ B := by
  rintro ⟨B, hB⟩
  have h := hB ⟨0, default, DownloadType.downloadDocset, none, none⟩
      (List.replicate (B + 1) (HopResponse.redirect default))
  rw [followChain_replicate] at h
  exact absurd h (by omega)

/-- C9, amended: redirect following performs exactly one hop per redirect
response — a finite chain of `n` redirect responses causes exactly `n`
follow-up transfers and no terminal event, and since each hop consumes
one response, processing any finite chain terminates; but no uniform
bound on the hop count exists (the code caps nothing). -/
theorem redirect_hops_track_chain (r : ReplyProps) (u : Url) (n : Nat) :
    (followChain r (List.replicate n (HopResponse.redirect u))).2 = n
      ∧ (followChain r (List.replicate n (HopResponse.redirect u))).1 = [] := by
  rw [followChain_replicate]
  exact ⟨rfl, rfl⟩

theorem find_key_filter {α : Type} (m : List (String × α)) (a k : String)
    (hak : a ≠ k) :
    (m.filter (fun p => p.1 ≠ k)).find? (fun p => p.1 = a)
      = m.find? (fun p => p.1 = a) := by
  induction m with
  | nil => rfl
  | cons x xs ih =>
      rw [List.filter_cons]
      by_cases hx : x.1 = k
      · have h1 : (decide (x.1 ≠ k)) = false := by simp [hx]
        have h2 : (decide (x.1 = a)) = false := by
          simp only [decide_eq_false_iff_not]
          rw [hx]
          exact fun h => hak h.symm
        rw [h1]
        simp only [Bool.false_eq_true, if_false, ih, List.find?_cons, h2]
      · have h1 : (decide (x.1 ≠ k)) = true := by simp [hx]
        rw [h1]
        simp only [if_true, List.find?_cons, ih]

theorem mapLookup_mapInsert {α : Type} (m : List (String × α)) (k a : String)
    (v : α) :
    mapLookup (mapInsert m k v) a = if a = k then some v else mapLookup m a := by
  unfold mapLookup mapInsert
  rw [List.find?_append]
  by_cases hak : a = k
  · subst hak
    have hnone : (m.filter (fun p => p.1 ≠ a)).find? (fun p => p.1 = a) = none := by
      rw [List.find?_eq_none]
      intro x hx
      rcases List.mem_filter.mp hx with ⟨-, hxa⟩
      simp only [decide_eq_true_eq] at hxa ⊢
      intro h
      exact absurd h hxa
    rw [hnone]
    simp [List.find?_cons]
  · rw [find_key_filter m a k hak]
    have hsingle : (([(k, v)] : List (String × α)).find? (fun p => p.1 = a)) = none := by
      simp only [List.find?_cons, List.find?_nil]
      have hkv : (decide ((k, v).1 = a)) = false := by
        simp only [decide_eq_false_iff_not]
        exact fun h => hak h.symm
      rw [hkv]
    rw [hsingle]
    simp [hak]

theorem mapLookup_processDocsetList (entries : List DocsetMetadata)
    (m : List (String × DocsetMetadata)) (k : String) :
    mapLookup (processDocsetList m entries) k
      = ((entries.filter (fun e => e.name = k)).getLast?.map
          (fun e => ({ e with source := "kapeli" } : DocsetMetadata))).or
          (mapLookup m k) := by
  induction entries generalizing m with
  | nil => simp [processDocsetList, Option.or]
  | cons e es ih =>
      have hstep : processDocsetList m (e :: es)
          = processDocsetList (mapInsert m e.name { e with source := "kapeli" }) es := rfl
      rw [hstep, ih, List.filter_cons]
      by_cases he : e.name = k
      · have hd : (decide (e.name = k)) = true := by simp [he]
        rw [hd]
        simp only [if_true, List.getLast?_cons]
        cases hgl : (es.filter (fun x => x.name = k)).getLast? with
        | some x => simp [hgl, Option.or]
        | none =>
            simp only [hgl, Option.getD, Option.map_some, Option.or,
              mapLookup_mapInsert]
            rw [if_pos he.symm]
            simp [Option.or]
      · have hd : (decide (e.name = k)) = false := by simp [he]
        rw [hd]
        simp only [Bool.false_eq_true, if_false, mapLookup_mapInsert]
        rw [if_neg (fun h => he h.symm)]

/-- C6, counterexample: the code's percentage function does not clamp —
at `received = 200`, `total = 100` it returns 200, while the claimed
clamped floor returns 100. -/
theorem percent_exceeds_clamp_at_200_of_100 :
    percent 200 100 = 200 ∧ percentSpecClamped 200 100 = 100 := by
  constructor
  · rfl
  · rfl

/-- C6, amended: `percent` is the floor of `received / total * 100` with
`total = 0` defined as `0%`, NOT clamped to `0..100` (values above 100
are returned as they are).  The claimed test points hold, and at fixed
positive `total` the function is monotonically non-decreasing in a
non-negative `received`. -/
theorem percent_unclamped_floor :
    percent 0 0 = 0 ∧ percent 50 100 = 50 ∧ percent 1 3 = 33
    ∧ (∀ received total : Int, 0 ≤ received → 0 < total →
        percent received total = received * 100 / total)
    ∧ (∀ r1 r2 total : Int, 0 ≤ r1 → r1 ≤ r2 → 0 < total →
        percent r1 total ≤ percent r2 total) := by
  refine ⟨rfl, rfl, rfl, ?_, ?_⟩
  · intro received total h0 ht
    unfold percent
    rw [if_neg (by omega)]
    exact Int.tdiv_eq_ediv (by nlinarith) (le_of_lt ht)
  · intro r1 r2 total h0 h12 ht
    unfold percent
    rw [if_neg (by omega), if_neg (by omega)]
    rw [Int.tdiv_eq_ediv (by nlinarith) (le_of_lt ht),
      Int.tdiv_eq_ediv (by nlinarith) (le_of_lt ht)]
    exact Int.ediv_le_ediv ht (by nlinarith)

/-- C10: requesting an archive download for a name absent from the
catalog mapping is a complete no-op — the state (active transfers,
progress, feeds, temp files, everything) is returned unchanged and no
transfer or error is produced. -/
theorem download_dash_docset_unknown_name_noop (s : PipelineState)
    (rand : Nat) (row : Int) (name : String)
    (h : mapLookup s.availableDocsets name = none) :
    downloadDashDocset s rand row name = s := by
  unfold downloadDashDocset
  rw [h]
  rfl

theorem download_dash_docset_unknown_name_noop_witness :
    downloadDashDocset inFlightState 7 0 "go" = inFlightState :=
  download_dash_docset_unknown_name_noop inFlightState 7 0 "go" rfl

/-- C4: deleting an installed docset removes it from the registry
unconditionally — for either outcome of the asynchronous directory
removal the name is gone from the registry afterwards — and when the
disk cleanup fails exactly one error is reported and the registry
removal is not rolled back. -/
theorem delete_docset_registry_removal_not_rolled_back (s : PipelineState)
    (name : String) (h : s.dataDirExists = true) :
    (∀ b : Bool, name ∉ (deleteDocset s name b).registry)
    ∧ (deleteDocset s name false).warnings = s.warnings + 1
    ∧ name ∉ (deleteDocset s name false).registry := by
  have hreg : ∀ b : Bool, (deleteDocset s name b).registry
      = s.registry.filter (fun n => n ≠ name) := by
    intro b
    unfold deleteDocset resetProgress
    cases b <;> simp [h]
  have hmem : name ∉ s.registry.filter (fun n => n ≠ name) := by
    intro hmem
    rcases List.mem_filter.mp hmem with ⟨-, hx⟩
    simp at hx
  refine ⟨fun b => by rw [hreg b]; exact hmem, ?_, by rw [hreg false]; exact hmem⟩
  unfold deleteDocset resetProgress
  simp [h]

theorem delete_docset_registry_removal_not_rolled_back_witness :
    (∀ b : Bool, "go" ∉ (deleteDocset installedState "go" b).registry)
    ∧ (deleteDocset installedState "go" false).warnings
        = installedState.warnings + 1
    ∧ "go" ∉ (deleteDocset installedState "go" false).registry :=
  delete_docset_registry_removal_not_rolled_back installedState "go" rfl

/-- C5: processing a completed catalog fetch — which `downloadDocsetList`
preceded by clearing the stored catalog, so the map starts empty — yields
a mapping whose key set is exactly the set of `name` fields of the input
array, a repeated name resolving last-wins, and no entry of any prior
snapshot surviving. -/
theorem catalog_mapping_key_set (s : PipelineState)
    (rid : Nat) (rurl : Url) (rmd : Option DocsetMetadata) (rli : Option Int)
    (entries : List DocsetMetadata)
    (hclear : s.availableDocsets = []) :
    (∀ k : String,
        (mapLookup (downloadCompleted s ⟨rid, rurl, DownloadType.downloadDocsetList, rmd, rli⟩
            (Outcome.payload (Body.docsetList true entries))).availableDocsets k).isSome
          ↔ k ∈ entries.map DocsetMetadata.name)
    ∧ (∀ k : String, ∀ e : DocsetMetadata,
        (entries.filter (fun x => x.name = k)).getLast? = some e →
          mapLookup (downloadCompleted s ⟨rid, rurl, DownloadType.downloadDocsetList, rmd, rli⟩
              (Outcome.payload (Body.docsetList true entries))).availableDocsets k
            = some { e with source := "kapeli" }) := by
  have havail : (downloadCompleted s ⟨rid, rurl, DownloadType.downloadDocsetList, rmd, rli⟩
      (Outcome.payload (Body.docsetList true entries))).availableDocsets
      = processDocsetList [] entries := by
    unfold downloadCompleted dispatchPayload
    simp only [if_true, hclear]
    split
    · simp [resetProgress]
    · simp [resetProgress]
  constructor
  · intro k
    rw [havail, mapLookup_processDocsetList]
    have hnil : mapLookup ([] : List (String × DocsetMetadata)) k = none := rfl
    have hiso : ∀ (o : Option DocsetMetadata) (f : DocsetMetadata → DocsetMetadata),
        (o.map f).isSome = o.isSome := by
      intro o f
      cases o <;> rfl
    rw [hnil, Option.or_none, hiso]
    rw [List.getLast?_isSome, Ne, List.filter_eq_nil_iff]
    simp only [decide_eq_true_eq, List.mem_map]
    constructor
    · intro hne
      by_contra hk
      exact hne (fun a ha hak => hk ⟨a, ha, hak⟩)
    · rintro ⟨a, ha, hak⟩ hall
      exact hall a ha hak
  · intro k e hlast
    rw [havail, mapLookup_processDocsetList, hlast]
    rfl

theorem catalog_mapping_key_set_witness :
    (∀ k : String,
        (mapLookup (downloadCompleted emptyState
            ⟨0, ⟨"http", "api.zealdocs.org", "/docsets"⟩,
              DownloadType.downloadDocsetList, none, none⟩
            (Outcome.payload (Body.docsetList true
              [goFeedMetadata]))).availableDocsets k).isSome
          ↔ k ∈ ([goFeedMetadata].map DocsetMetadata.name))
    ∧ (∀ k : String, ∀ e : DocsetMetadata,
        (([goFeedMetadata] : List DocsetMetadata).filter
            (fun x => x.name = k)).getLast? = some e →
          mapLookup (downloadCompleted emptyState
              ⟨0, ⟨"http", "api.zealdocs.org", "/docsets"⟩,
                DownloadType.downloadDocsetList, none, none⟩
              (Outcome.payload (Body.docsetList true
                [goFeedMetadata]))).availableDocsets k
            = some { e with source := "kapeli" }) :=
  catalog_mapping_key_set emptyState 0 ⟨"http", "api.zealdocs.org", "/docsets"⟩
    none none [goFeedMetadata] rfl

/-- C2: a completed feed fetch that parses to metadata with at least one
download URL, whose version is empty or differs from the version of the
previously stored metadata carried on the transfer, stores the new
metadata in `m_userFeeds` under its name and starts exactly one archive
(`DownloadDocset`) transfer to the feed's download URL carrying that
metadata; an empty version triggers this for every carried version. -/
theorem feed_completion_stores_and_starts_archive (s : PipelineState)
    (rid : Nat) (rurl : Url) (rmd : Option DocsetMetadata) (rli : Option Int)
    (metadata : DocsetMetadata)
    (hurls : metadata.urls ≠ [])
    (hver : metadata.version = "" ∨ (rmd.getD default).version ≠ metadata.version) :
    mapLookup (downloadCompleted s ⟨rid, rurl, DownloadType.downloadDashFeed, rmd, rli⟩
        (Outcome.payload (Body.dashFeed metadata))).userFeeds metadata.name
      = some metadata
    ∧ (downloadCompleted s ⟨rid, rurl, DownloadType.downloadDashFeed, rmd, rli⟩
        (Outcome.payload (Body.dashFeed metadata))).replies
      = s.replies.eraseP (fun q => q.id == rid)
        ++ [⟨s.nextId, metadata.url, DownloadType.downloadDocset, some metadata, none⟩]
    ∧ (downloadCompleted s ⟨rid, rurl, DownloadType.downloadDashFeed, rmd, rli⟩
        (Outcome.payload (Body.dashFeed metadata))).warnings = s.warnings := by
  have hurlsb : metadata.urls.isEmpty = false := by
    rw [List.isEmpty_eq_false]
    exact hurls
  have hcond : (metadata.version.isEmpty
      || decide ((rmd.getD default).version ≠ metadata.version)) = true := by
    rcases hver with hv | hv
    · have : metadata.version.isEmpty = true := by
        rw [String.isEmpty_iff]
        exact hv
      rw [this]
      rfl
    · simp [hv]
  have hne : (startDownload
      { s with
          replies := s.replies.eraseP (fun q => q.id == rid),
          userFeeds := mapInsert s.userFeeds metadata.name metadata }
      metadata.url DownloadType.downloadDocset (some metadata) none).replies.isEmpty
      = false := by
    simp [startDownload]
  have hform : downloadCompleted s ⟨rid, rurl, DownloadType.downloadDashFeed, rmd, rli⟩
      (Outcome.payload (Body.dashFeed metadata))
      = startDownload
          { s with
              replies := s.replies.eraseP (fun q => q.id == rid),
              userFeeds := mapInsert s.userFeeds metadata.name metadata }
          metadata.url DownloadType.downloadDocset (some metadata) none := by
    unfold downloadCompleted dispatchPayload
    dsimp only
    rw [hurlsb]
    simp only [Bool.false_eq_true, if_false]
    rw [hcond, if_pos rfl]
    rw [if_neg (by rw [hne]; exact Bool.false_ne_true)]
  rw [hform]
  refine ⟨?_, rfl, rfl⟩
  show mapLookup (mapInsert s.userFeeds metadata.name metadata) metadata.name
      = some metadata
  rw [mapLookup_mapInsert]
  simp

theorem feed_completion_stores_and_starts_archive_witness :
    mapLookup (downloadCompleted goFeedState
        ⟨0, ⟨"http", "feeds.example.org", "/go.xml"⟩,
          DownloadType.downloadDashFeed,
          some { goFeedMetadata with version := "1.4" }, none⟩
        (Outcome.payload (Body.dashFeed goFeedMetadata))).userFeeds
        goFeedMetadata.name
      = some goFeedMetadata
    ∧ (downloadCompleted goFeedState
        ⟨0, ⟨"http", "feeds.example.org", "/go.xml"⟩,
          DownloadType.downloadDashFeed,
          some { goFeedMetadata with version := "1.4" }, none⟩
        (Outcome.payload (Body.dashFeed goFeedMetadata))).replies
      = goFeedState.replies.eraseP (fun q => q.id == 0)
        ++ [⟨goFeedState.nextId, goFeedMetadata.url, DownloadType.downloadDocset,
              some goFeedMetadata, none⟩]
    ∧ (downloadCompleted goFeedState
        ⟨0, ⟨"http", "feeds.example.org", "/go.xml"⟩,
          DownloadType.downloadDashFeed,
          some { goFeedMetadata with version := "1.4" }, none⟩
        (Outcome.payload (Body.dashFeed goFeedMetadata))).warnings
      = goFeedState.warnings :=
  feed_completion_stores_and_starts_archive goFeedState 0
    ⟨"http", "feeds.example.org", "/go.xml"⟩
    (some { goFeedMetadata with version := "1.4" }) none goFeedMetadata
    (by decide) (Or.inl rfl)

/-- C7, counterexample: a network-error completion that removes the last
active transfer does not reset the combined progress counters and does
not re-enable the UI actions — the error path returns before the
reset. -/
theorem network_error_completion_skips_reset :
    (downloadCompleted inFlightState catalogReply (Outcome.networkError false)).replies = []
    ∧ (downloadCompleted inFlightState catalogReply (Outcome.networkError false)).combinedReceived = 5
    ∧ (downloadCompleted inFlightState catalogReply (Outcome.networkError false)).combinedTotal = 10
    ∧ (downloadCompleted inFlightState catalogReply (Outcome.networkError false)).uiEnabled = false := by
  refine ⟨?_, rfl, rfl, rfl⟩
  rfl

/-- C7, amended: when a successful (payload) completion leaves the
active transfer set empty, the combined progress counters are reset to
(0,0) and the UI actions requiring no in-flight work are re-enabled;
error and cancelled completions, however, return early and leave the
counters untouched (stop-all resets them itself, separately from the
completion events). -/
theorem last_payload_completion_resets_progress (s : PipelineState)
    (r : ReplyProps) (body : Body)
    (h : (downloadCompleted s r (Outcome.payload body)).replies = []) :
    ((downloadCompleted s r (Outcome.payload body)).combinedReceived = 0
      ∧ (downloadCompleted s r (Outcome.payload body)).combinedTotal = 0
      ∧ (downloadCompleted s r (Outcome.payload body)).uiEnabled = true)
    ∧ ∀ c : Bool,
        (downloadCompleted s r (Outcome.networkError c)).combinedReceived
            = s.combinedReceived
        ∧ (downloadCompleted s r (Outcome.networkError c)).combinedTotal
            = s.combinedTotal := by
  constructor
  · have hform : downloadCompleted s r (Outcome.payload body)
        = (if (dispatchPayload
              { s with replies := s.replies.eraseP (fun q => q.id == r.id) } r body).replies.isEmpty
           then resetProgress (dispatchPayload
              { s with replies := s.replies.eraseP (fun q => q.id == r.id) } r body)
           else dispatchPayload
              { s with replies := s.replies.eraseP (fun q => q.id == r.id) } r body) := rfl
    rw [hform] at h ⊢
    by_cases ht : (dispatchPayload
        { s with replies := s.replies.eraseP (fun q => q.id == r.id) } r body).replies.isEmpty
    · rw [if_pos ht]
      exact ⟨rfl, rfl, rfl⟩
    · rw [if_neg ht] at h
      exact absurd (List.isEmpty_iff.mpr h) ht
  · intro c
    cases c
    · exact ⟨rfl, rfl⟩
    · exact ⟨rfl, rfl⟩

theorem last_payload_completion_resets_progress_witness :
    ((downloadCompleted inFlightState catalogReply
        (Outcome.payload (Body.docsetList true []))).combinedReceived = 0
      ∧ (downloadCompleted inFlightState catalogReply
          (Outcome.payload (Body.docsetList true []))).combinedTotal = 0
      ∧ (downloadCompleted inFlightState catalogReply
          (Outcome.payload (Body.docsetList true []))).uiEnabled = true)
    ∧ ∀ c : Bool,
        (downloadCompleted inFlightState catalogReply
            (Outcome.networkError c)).combinedReceived
          = inFlightState.combinedReceived
        ∧ (downloadCompleted inFlightState catalogReply
            (Outcome.networkError c)).combinedTotal
          = inFlightState.combinedTotal :=
  last_payload_completion_resets_progress inFlightState catalogReply
    (Body.docsetList true []) rfl

/-- C8: evaluating the two extraction handlers at a pending install of
docset "go" whose archive sits in the temp file "/tmp/qt_temp.0": the
completion handler removes the temp-file entry, but the error handler
derives its key from the temp file's base name — "qt_temp.docset", never
the docset name — so the entry (and with it the temp file) survives the
error case, although the claim requires it removed in both cases. -/
theorem extraction_error_leaves_tmp_entry :
    (extractionCompleted extractingState "/tmp/qt_temp.0").tmpFiles = []
    ∧ (extractionError extractingState "/tmp/qt_temp.0").tmpFiles
        = [("go", "/tmp/qt_temp.0")]
    ∧ baseName "/tmp/qt_temp.0" ++ ".docset" = "qt_temp.docset" := by
  refine ⟨?_, ?_, ?_⟩
  · rfl
  · rfl
  · rfl

/-- C3: stop-all at a state with one active transfer — the catalog
fetch, which carries no list-item property — and an empty
available-docset list widget aborts nothing: the `continue` guarding the
progress-bar lookup also skips `reply->abort()`.  The aggregate progress
is nevertheless reset to (0,0), and a cancelled completion as such
produces no user-visible error report. -/
theorem stop_downloads_skips_abort_without_list_item :
    inFlightState.replies.length = 1
    ∧ (stopDownloads inFlightState).2 = []
    ∧ (stopDownloads inFlightState).1.combinedReceived = 0
    ∧ (stopDownloads inFlightState).1.combinedTotal = 0
    ∧ (downloadCompleted inFlightState catalogReply
        (Outcome.networkError true)).warnings = inFlightState.warnings := by
  refine ⟨rfl, ?_, rfl, rfl, rfl⟩
  rfl

end Zeal
